import Mathlib

/-!
Shallow embedding of the kuangyh/aerpcproxy repository (Go).

The repository contains three variants of the same RPC-over-HTTP adapter:
  * `swiffy.go`  (package swiffy): `methodHandler`, `serviceHandler`,
    `ProtoDecoder`, `ProtoEncoder`, `newMethodHandler`.
  * `aerpcproxy.go` (package aerpcproxy) and the unnamed `rpcproxy` file:
    `proxyHandler`, `Proxy`, and (rpcproxy only) `RegisterService` with
    `camelCaseToUnderscore`.  The two proxy handlers are line-for-line
    identical except for how the context is created, which is not modelled.

HTTP plumbing is modelled by an explicit response-writer state `RW` with
Go `net/http` semantics: `WriteHeader` commits a status once (later calls
are ignored), a `Write` with no committed status first commits 200.
Header mutation after the status is committed is recorded anyway; no claim
depends on that distinction.  Reading the request body always succeeds in
the model (the `ioutil.ReadAll` error branch is not exercised by any claim).
External codec calls (`jsonpb`/`proto` marshal and unmarshal) are parameters.
-/

namespace Http

/-- Go `http.ResponseWriter` state: the committed status (if any), the
response headers in order, and the accumulated body bytes. -/
structure RW where
  status : Option Nat
  headers : List (String × String)
  body : String
deriving Repr, DecidableEq

/-- A fresh writer, as handed to a handler by the HTTP server. -/
def RW.empty : RW := ⟨none, [], ""⟩

/-- Go `w.WriteHeader(s)`: commits the status; superfluous calls are ignored. -/
def RW.writeHeader (w : RW) (s : Nat) : RW :=
  match w.status with
  | none => { w with status := some s }
  | some _ => w

/-- Go `w.Write(d)`: commits status 200 if none committed yet, appends `d`. -/
def RW.write (w : RW) (d : String) : RW :=
  let w := w.writeHeader 200
  { w with body := w.body ++ d }

/-- Go `w.Header().Add(k, v)`: appends a header entry. -/
def RW.addHeader (w : RW) (k v : String) : RW :=
  { w with headers := w.headers ++ [(k, v)] }

/-- Go `w.Header().Set(k, v)`: replaces any entries for `k`. -/
def RW.setHeader (w : RW) (k v : String) : RW :=
  { w with headers := (w.headers.filter (fun p => p.1 ≠ k)) ++ [(k, v)] }

/-- The status the client observes: the committed status, else 200
(a handler that returns without writing anything yields 200). -/
def RW.finalStatus (w : RW) : Nat := w.status.getD 200

/-- Go `http.Error(w, msg, code)`: sets plain-text content type and the
`nosniff` header, commits `code`, writes `msg` followed by a newline. -/
def httpError (w : RW) (msg : String) (code : Nat) : RW :=
  ((((w.setHeader "Content-Type" "text/plain; charset=utf-8").setHeader
      "X-Content-Type-Options" "nosniff").writeHeader code).write (msg ++ "\n"))

/-- An HTTP request after form parsing: `form` models Go `r.Form`
(parameter name to its list of values), `body` the byte stream content. -/
structure Request where
  form : List (String × List String)
  body : String
deriving Repr, DecidableEq

/-- Go `r.Form[k]`: the value list for `k`, `[]` when the key is absent. -/
def Request.formValues (r : Request) (k : String) : List String :=
  match r.form.find? (fun p => p.1 = k) with
  | none => []
  | some p => p.2

/-- Go `r.FormValue(k)`: the first value for `k`, `""` when absent. -/
def Request.formValue (r : Request) (k : String) : String :=
  match r.formValues k with
  | [] => ""
  | v :: _ => v

/-- A Go `error` value as seen by the dispatchers: `text` is `Error()`,
`httpStatus` is `some s` exactly when the value implements the
`WithHTTPStatus`/`HTTPStatus` capability, `message` is `some m` exactly when
it implements `WithMessage` (the inner option models `Message()` possibly
returning nil). -/
structure GoError (M : Type) where
  text : String
  httpStatus : Option Nat
  message : Option (Option M)

/-- The external protobuf codec capabilities consumed by the handlers:
`isProto` models whether the Go type satisfies the `proto.Message` type
assertion; the six functions model `jsonpb`/`proto` (un)marshalling, which
the repository treats as an opaque external library. -/
structure ProtoCodec (M : Type) where
  isProto : Bool
  jsonUnmarshal : String → M → Except String M
  protoUnmarshal : String → M → Except String M
  textUnmarshal : String → M → Except String M
  jsonMarshal : M → Except String String
  protoMarshal : M → Except String String
  textMarshal : M → Except String String

end Http

namespace Swiffy

open Http

/-- swiffy.go `methodHandler`: the backend thunk (returning the `(res, err)`
pair of the reflective call), the zero value of the request type
(`reflect.New(h.reqType)`), and the configured decoder and encoder.
A decoder takes `(dst, src, format)`; an encoder takes
`(w, status, src, format)` and returns the updated writer plus the error. -/
structure methodHandler (Rq Rs : Type) where
  backend : Rq → Rs × Option (GoError Rs)
  zeroReq : Rq
  decoder : Rq → String → String → Except String Rq
  encoder : RW → Nat → Rs → String → RW × Option String

/-- swiffy.go lines 131-134: `format := r.FormValue("format")`, defaulting
to `"json"` when empty. -/
def resolveFormat (r : Request) : String :=
  let f := r.formValue "format"
  if f = "" then "json" else f

/-- swiffy.go lines 136-144: the raw bytes come from the `request` form
value when it is non-empty, else from the body stream. -/
def resolveRawBody (r : Request) : String :=
  let s := r.formValue "request"
  if s ≠ "" then s else r.body

/-- swiffy.go lines 152-175: everything after a successful decode — the
backend call, the `nosniff` header, error/status mapping with the optional
structured-message encoding, and success encoding. -/
def methodHandler.afterDecode (h : methodHandler Rq Rs) (format : String)
    (req : Rq) (w : RW) : RW :=
  let p := h.backend req
  let w := w.setHeader "X-Content-Type-Options" "nosniff"
  match p.2 with
  | some err =>
    let st := err.httpStatus.getD 500
    match err.message with
    | some (some m) =>
      match h.encoder w st m format with
      | (w2, none) => w2
      | (w2, some _) => w2.write (err.text ++ "\n")
    | _ => w.write (err.text ++ "\n")
  | none =>
    match h.encoder w 200 p.1 format with
    | (w2, none) => w2
    | (w2, some e) => httpError w2 ("Encode response failed, " ++ e) 500

/-- swiffy.go `methodHandler.ServeHTTP`: resolve format and raw body,
decode (a failure is a 400 wrapping the codec error), then `afterDecode`. -/
def methodHandler.ServeHTTP (h : methodHandler Rq Rs) (r : Request) (w : RW) : RW :=
  let format := resolveFormat r
  let rb := resolveRawBody r
  match h.decoder h.zeroReq rb format with
  | .error e => httpError w ("Decode request failed, " ++ e) 400
  | .ok req => h.afterDecode format req w

/-- swiffy.go `ProtoDecoder`: empty input is a no-op success, then the
proto type assertion, then the format switch. -/
def ProtoDecoder (c : ProtoCodec M) (dst : M) (src : String) (format : String) :
    Except String M :=
  if src.length = 0 then .ok dst
  else if c.isProto = false then .error "Decode destination is not proto"
  else if format = "json" then c.jsonUnmarshal src dst
  else if format = "proto" then c.protoUnmarshal src dst
  else if format = "text" then c.textUnmarshal src dst
  else .error ("Unknown format " ++ format)

/-- swiffy.go `ProtoEncoder`: proto type assertion, then per-format the
content-type header and status are committed before marshalling; a marshal
failure is returned after that commit, an unknown format before any write. -/
def ProtoEncoder (c : ProtoCodec M) (w : RW) (status : Nat) (src : M)
    (format : String) : RW × Option String :=
  if c.isProto = false then (w, some "Encode source is not proto")
  else if format = "json" then
    let w := (w.addHeader "Content-Type" "text/json; charset=utf-8").writeHeader status
    match c.jsonMarshal src with
    | .ok s => (w.write s, none)
    | .error e => (w, some e)
  else if format = "proto" then
    let w := (w.addHeader "Content-Type" "application/x-protobuf").writeHeader status
    match c.protoMarshal src with
    | .ok s => (w.write s, none)
    | .error e => (w, some e)
  else if format = "text" then
    let w := (w.addHeader "Content-Type" "text/plain; charset=utf-8").writeHeader status
    match c.textMarshal src with
    | .ok s => (w.write s, none)
    | .error e => (w, some e)
  else (w, some ("Unknown format " ++ format))

/-- swiffy.go `serviceHandler`: the method table built by
`NewServiceHandler`, modelled as the Go map it is. -/
structure serviceHandler where
  methods : String → Option (Request → RW → RW)

/-- swiffy.go `serviceHandler.ServeHTTP`: 400 on a missing `method`
parameter, 404 on an unregistered name, else delegate to the method
handler registered under that name. -/
def serviceHandler.ServeHTTP (h : serviceHandler) (r : Request) (w : RW) : RW :=
  let method := r.formValue "method"
  if method = "" then httpError w "No method parameter" 400
  else match h.methods method with
  | none => httpError w "Method not found" 404
  | some mh => mh r w

/-- Instrumented variant of `methodHandler.ServeHTTP` taking the format
given to the decoder and the format given to the encoder as two separate
arguments.  Used only to state that the real handler resolves the format
once and feeds that single resolution to both the decode and encode steps. -/
def methodHandler.ServeWithFormats (h : methodHandler Rq Rs)
    (fmtDec fmtEnc : String) (r : Request) (w : RW) : RW :=
  let rb := resolveRawBody r
  match h.decoder h.zeroReq rb fmtDec with
  | .error e => httpError w ("Decode request failed, " ++ e) 400
  | .ok req => h.afterDecode fmtEnc req w

/-- The reflective shape of a registered value, as interrogated by
swiffy.go `newMethodHandler` and by `Proxy` in the proxy variants:
whether it is a function, its arities, and the kind/interface facts the
validation switch checks. -/
structure FnType where
  isFunc : Bool
  numIn : Nat
  numOut : Nat
  in0ImplementsContext : Bool
  in1IsPtr : Bool
  in1ImplementsProto : Bool
  out0ImplementsProto : Bool
  out1IsError : Bool
deriving Repr, DecidableEq

/-- swiffy.go lines 95-110: `newMethodHandler` panics iff the value is not
a function or the signature switch hits any of its cases. -/
def newMethodHandlerPanics (t : FnType) : Bool :=
  !t.isFunc || t.numIn != 2 || t.numOut != 2 ||
    !t.in0ImplementsContext || !t.in1IsPtr || !t.out1IsError

end Swiffy

namespace Rpcproxy

open Http

/-- aerpcproxy.go / rpcproxy `proxyHandler`: the backend (the `(res, err)`
pair of the reflective call) and the zero value of the request type. -/
structure proxyHandler (Rq Rs : Type) where
  backend : Rq → Rs × Option (GoError Rs)
  zeroReq : Rq

/-- proxyHandler.ServeHTTP format resolution: `format := "proto"`,
overridden by the first value of `r.Form["format"]` when the key is
present with at least one value. -/
def proxyResolveFormat (r : Request) : String :=
  match r.formValues "format" with
  | [] => "proto"
  | v :: _ => v

/-- proxyHandler.ServeHTTP raw-body resolution: `r.Form["request"]` is
tested for a non-empty VALUE LIST (key presence), not a non-empty string;
when present the first value is used even if it is the empty string, else
the body stream is read. -/
def proxyResolveRawBody (r : Request) : String :=
  match r.formValues "request" with
  | [] => r.body
  | v :: _ => v

/-- proxyHandler.ServeHTTP after the request value is settled: the backend
call, error mapping via `http.Error` (status from the `HTTPStatus`
capability, else 500), then the encode switch in which every marshal error
is discarded and an unknown format writes nothing at all.  In the `proto`
arm a failed marshal leaves `rb` nil and `w.Write(rb)` still commits the
implicit 200. -/
def proxyHandler.afterDecode (e : ProtoCodec Rs) (h : proxyHandler Rq Rs)
    (format : String) (req : Rq) (w : RW) : RW :=
  let p := h.backend req
  match p.2 with
  | some err => httpError w err.text (err.httpStatus.getD 500)
  | none =>
    if format = "json" then
      let w := w.addHeader "Content-Type" "text/json; charset=utf-8"
      match e.jsonMarshal p.1 with
      | .ok s => w.write s
      | .error _ => w
    else if format = "proto" then
      let w := w.addHeader "Content-Type" "application/x-protobuf"
      match e.protoMarshal p.1 with
      | .ok s => w.write s
      | .error _ => w.write ""
    else if format = "text" then
      let w := w.addHeader "Content-Type" "text/plain; charset=utf-8"
      match e.textMarshal p.1 with
      | .ok s => w.write s
      | .error _ => w
    else w

/-- The decode switch inside `proxyHandler.ServeHTTP` (run only on a
non-empty raw body). -/
def proxyDecode (c : ProtoCodec Rq) (zero : Rq) (rb : String) (format : String) :
    Except String Rq :=
  if format = "json" then c.jsonUnmarshal rb zero
  else if format = "proto" then c.protoUnmarshal rb zero
  else if format = "text" then c.textUnmarshal rb zero
  else .error ("unknown format " ++ format)

/-- aerpcproxy.go / rpcproxy `proxyHandler.ServeHTTP` (the two files are
identical here apart from context creation): resolve format and raw body,
decode only when the raw body is non-empty (a failure is a 500), then
`afterDecode`.  `c` decodes requests, `e` encodes responses. -/
def proxyHandler.ServeHTTP (c : ProtoCodec Rq) (e : ProtoCodec Rs)
    (h : proxyHandler Rq Rs) (r : Request) (w : RW) : RW :=
  let format := proxyResolveFormat r
  let rb := proxyResolveRawBody r
  if rb.length > 0 then
    match proxyDecode c h.zeroReq rb format with
    | .error e2 => httpError w ("failed parsing request, " ++ e2) 500
    | .ok req => proxyHandler.afterDecode e h format req w
  else proxyHandler.afterDecode e h format h.zeroReq w

/-- Instrumented variant of `proxyHandler.ServeHTTP` with the decode-time
and encode-time formats separated, used only to state that the real
handler resolves the format once for both steps. -/
def proxyHandler.ServeWithFormats (c : ProtoCodec Rq) (e : ProtoCodec Rs)
    (h : proxyHandler Rq Rs) (fmtDec fmtEnc : String) (r : Request) (w : RW) : RW :=
  let rb := proxyResolveRawBody r
  if rb.length > 0 then
    match proxyDecode c h.zeroReq rb fmtDec with
    | .error e2 => httpError w ("failed parsing request, " ++ e2) 500
    | .ok req => proxyHandler.afterDecode e h fmtEnc req w
  else proxyHandler.afterDecode e h fmtEnc h.zeroReq w

/-- aerpcproxy.go lines 119-141 / rpcproxy `Proxy` validation: panics iff
the value is not a function or the signature switch hits any of its cases
(the proxy variants additionally require the message types to implement
`proto.Message`). -/
def ProxyPanics (t : Swiffy.FnType) : Bool :=
  !t.isFunc || t.numIn != 2 || t.numOut != 2 ||
    !t.in0ImplementsContext || !t.in1IsPtr || !t.in1ImplementsProto ||
    !t.out0ImplementsProto || !t.out1IsError

/-- rpcproxy `camelCaseToUnderscore` body: Go ranges over the string with
`i` the byte offset of the rune `c`; the only use of `i` is the test
`i > 0`, so the offset is threaded faithfully via `Char.utf8Size`.
`unicode.IsUpper`/`unicode.ToLower` are modelled by `Char.isUpper`/
`Char.toLower`, which agree with Go on the ASCII range of Go identifiers. -/
def camelCaseToUnderscoreAux : List Char → Nat → List Char
  | [], _ => []
  | c :: rest, i =>
    (if c.isUpper then
      (if i > 0 then ['_', c.toLower] else [c.toLower])
     else [c]) ++ camelCaseToUnderscoreAux rest (i + c.utf8Size)

/-- rpcproxy lines 169-182: `camelCaseToUnderscore`. -/
def camelCaseToUnderscore (s : String) : String :=
  String.mk (camelCaseToUnderscoreAux s.data 0)

/-- rpcproxy lines 153-167: the URL path `RegisterService` binds a method
name to. -/
def registeredPath (name : String) : String :=
  "/" ++ camelCaseToUnderscore name

/-- Rendering of claim C7's words, for comparison with the source
function: the first character is lowered if uppercase, every later
uppercase character is replaced by an underscore followed by its lower
case, every other character is copied unchanged. -/
def claimLowerSnake (s : String) : String :=
  match s.data with
  | [] => ""
  | c :: rest =>
    String.mk ((if c.isUpper then [c.toLower] else [c]) ++
      (rest.map (fun d => if d.isUpper then ['_', d.toLower] else [d])).flatten)

end Rpcproxy

namespace Fixtures

open Http

/-- A codec over `Unit` messages whose calls all succeed: unmarshalling
returns the destination unchanged, marshalling yields `"ok"`. -/
def unitCodec : ProtoCodec Unit where
  isProto := true
  jsonUnmarshal := fun _ d => .ok d
  protoUnmarshal := fun _ d => .ok d
  textUnmarshal := fun _ d => .ok d
  jsonMarshal := fun _ => .ok "ok"
  protoMarshal := fun _ => .ok "ok"
  textMarshal := fun _ => .ok "ok"

/-- `unitCodec` with a binary (`proto`) unmarshal that always fails. -/
def protoDecodeFailCodec : ProtoCodec Unit :=
  { unitCodec with protoUnmarshal := fun _ _ => .error "bad wire" }

/-- `unitCodec` with a binary (`proto`) marshal that always fails. -/
def protoEncodeFailCodec : ProtoCodec Unit :=
  { unitCodec with protoMarshal := fun _ => .error "boom" }

/-- `unitCodec` with a json marshal that always fails. -/
def jsonEncodeFailCodec : ProtoCodec Unit :=
  { unitCodec with jsonMarshal := fun _ => .error "boom" }

/-- `unitCodec` with a text marshal that always fails. -/
def textEncodeFailCodec : ProtoCodec Unit :=
  { unitCodec with textMarshal := fun _ => .error "boom" }

/-- A backend over `Unit` that returns the plain error `"No name"`:
no `HTTPStatus` capability, no `WithMessage` capability. -/
def plainErrBackend : Unit → Unit × Option (GoError Unit) :=
  fun _ => ((), some ⟨"No name", none, none⟩)

/-- A backend over `Unit` that always succeeds. -/
def okBackend : Unit → Unit × Option (GoError Unit) :=
  fun _ => ((), none)

/-- A swiffy method handler over `Unit` wired to the always-succeeding
codec and backend. -/
def okHandler : Swiffy.methodHandler Unit Unit :=
  ⟨okBackend, (), Swiffy.ProtoDecoder unitCodec, Swiffy.ProtoEncoder unitCodec⟩

/-- A proxy handler over `Unit` with the always-succeeding backend. -/
def okProxy : Rpcproxy.proxyHandler Unit Unit := ⟨okBackend, ()⟩

/-- A method handler registered under `"Hello"` in `helloTable`. -/
def helloH : Request → RW → RW := fun _ w => w.write "hi"

/-- A service table exposing exactly the method `"Hello"`. -/
def helloTable : Swiffy.serviceHandler :=
  ⟨fun m => if m = "Hello" then some helloH else none⟩

end Fixtures

section CamelLemmas

open Rpcproxy

/-- Once past the first rune the byte offset is positive, so every later
uppercase rune gets the underscore prefix. -/
theorem camelAux_flatten_of_pos (l : List Char) : ∀ i, 0 < i →
    camelCaseToUnderscoreAux l i =
      (l.map (fun d => if d.isUpper then ['_', d.toLower] else [d])).flatten := by
  induction l with
  | nil => intro i _; rfl
  | cons c rest ih =>
    intro i hi
    simp only [camelCaseToUnderscoreAux, List.map_cons, List.flatten_cons]
    rw [if_pos hi, ih (i + c.utf8Size) (by omega)]

/-- Lowering an uppercase ASCII letter never yields an underscore. -/
theorem charUpper_toLower_ne_underscore (c : Char) (h : c.isUpper = true) :
    c.toLower ≠ '_' := by
  intro he
  simp [Char.isUpper] at h
  have h2a : 65 ≤ c.toNat := h.1
  have h2b : c.toNat ≤ 90 := h.2
  have hvalid : (c.toNat + 32).isValidChar := by
    unfold Nat.isValidChar
    left
    omega
  have hv : (Char.ofNat (c.toNat + 32)).toNat = c.toNat + 32 := by
    unfold Char.ofNat
    rw [dif_pos hvalid]
    unfold Char.ofNatAux
    simp [Char.toNat, UInt32.toNat]
  have h2 : 65 ≤ c.toNat ∧ c.toNat ≤ 90 := ⟨h2a, h2b⟩
  simp [Char.toLower, h2] at he
  have h3 := congrArg Char.toNat he
  rw [hv] at h3
  have hu : Char.toNat '_' = 95 := rfl
  rw [hu] at h3
  omega

end CamelLemmas

/-- C7 counterexample: on the input `"_a"` the URL-path derivation copies
the leading underscore unchanged, so the output starts with an underscore,
refuting the claim's clause that the result never starts with one. -/
theorem C7_leading_underscore_counterexample :
    Rpcproxy.camelCaseToUnderscore "_a" = "_a" ∧
      (Rpcproxy.camelCaseToUnderscore "_a").data.head? = some '_' := by
  constructor
  · decide
  · decide

/-- C7 (amended): the URL-path derivation lowers every uppercase letter,
prefixing it with exactly one underscore unless it is the first character,
and copies every other character unchanged (the equality with
`claimLowerSnake`, the rendering of the claim's words); the result starts
with an underscore only if the input itself does — in particular never for
Go exported method names, which begin with an uppercase letter. -/
theorem C7_lower_snake_amended (s : String) :
    Rpcproxy.camelCaseToUnderscore s = Rpcproxy.claimLowerSnake s ∧
      (s.data.head? ≠ some '_' →
        (Rpcproxy.camelCaseToUnderscore s).data.head? ≠ some '_') := by
  constructor
  · unfold Rpcproxy.camelCaseToUnderscore Rpcproxy.claimLowerSnake
    cases hd : s.data with
    | nil => rfl
    | cons c rest =>
      simp only [Rpcproxy.camelCaseToUnderscoreAux]
      have h1 : ¬ (0 : Nat) > 0 := by omega
      rw [if_neg h1, camelAux_flatten_of_pos rest (0 + c.utf8Size)
        (by have := Char.utf8Size_pos c; omega)]
  · intro h
    unfold Rpcproxy.camelCaseToUnderscore
    cases hd : s.data with
    | nil => simp [Rpcproxy.camelCaseToUnderscoreAux]
    | cons c rest =>
      rw [hd] at h
      simp only [Rpcproxy.camelCaseToUnderscoreAux]
      by_cases hc : c.isUpper
      · simp [hc]
        exact charUpper_toLower_ne_underscore c hc
      · simp [hc]
        simp at h
        exact h

/-- C7 witness: the amended statement evaluated at `"FooBar"`. -/
theorem C7_lower_snake_amended_witness :
    Rpcproxy.camelCaseToUnderscore "FooBar" = Rpcproxy.claimLowerSnake "FooBar" ∧
      (Rpcproxy.camelCaseToUnderscore "FooBar").data.head? ≠ some '_' :=
  ⟨(C7_lower_snake_amended "FooBar").1,
    (C7_lower_snake_amended "FooBar").2 (by decide)⟩

/-- C1, evaluated at the failing input: when the backend returns the plain
error "No name" (no status-carrying capability, no message capability),
the swiffy `methodHandler` writes the error text with `fmt.Fprintln`
without ever calling `WriteHeader` — the computed `st := 500` is unused on
that path — so the response carries the implicit status 200, not the 500
the claim states.  The `proxyHandler` variants at the same input do
respond 500 via `http.Error`. -/
theorem C1_plain_error_status :
    (((Swiffy.methodHandler.mk Fixtures.plainErrBackend ()
        (Swiffy.ProtoDecoder Fixtures.unitCodec)
        (Swiffy.ProtoEncoder Fixtures.unitCodec)).ServeHTTP
          ⟨[], ""⟩ Http.RW.empty).finalStatus = 200 ∧
      ((Swiffy.methodHandler.mk Fixtures.plainErrBackend ()
        (Swiffy.ProtoDecoder Fixtures.unitCodec)
        (Swiffy.ProtoEncoder Fixtures.unitCodec)).ServeHTTP
          ⟨[], ""⟩ Http.RW.empty).body = "No name\n") ∧
    (((Rpcproxy.proxyHandler.mk Fixtures.plainErrBackend ()).ServeHTTP
        Fixtures.unitCodec Fixtures.unitCodec ⟨[], ""⟩ Http.RW.empty).finalStatus = 500 ∧
      ((Rpcproxy.proxyHandler.mk Fixtures.plainErrBackend ()).ServeHTTP
        Fixtures.unitCodec Fixtures.unitCodec ⟨[], ""⟩ Http.RW.empty).body = "No name\n") := by
  decide

/-- C9: a registered value violating the required shape in any of the
claim's listed ways — not a function, in-arity or out-arity other than 2,
first parameter not a context, second parameter not a pointer, or second
result not `error` — makes both swiffy's `newMethodHandler` and the proxy
variants' `Proxy` panic at setup time. -/
theorem C9_registration_panics (t : Swiffy.FnType)
    (h : t.isFunc = false ∨ t.numIn ≠ 2 ∨ t.numOut ≠ 2 ∨
      t.in0ImplementsContext = false ∨ t.in1IsPtr = false ∨ t.out1IsError = false) :
    Swiffy.newMethodHandlerPanics t = true ∧ Rpcproxy.ProxyPanics t = true := by
  unfold Swiffy.newMethodHandlerPanics Rpcproxy.ProxyPanics
  rcases h with h | h | h | h | h | h <;> simp [h]

/-- C9 witness: a function with three inputs is rejected by both
registration paths. -/
theorem C9_registration_panics_witness :
    Swiffy.newMethodHandlerPanics ⟨true, 3, 2, true, true, true, true, true⟩ = true ∧
      Rpcproxy.ProxyPanics ⟨true, 3, 2, true, true, true, true, true⟩ = true :=
  C9_registration_panics ⟨true, 3, 2, true, true, true, true, true⟩ (by decide)

/-- C5: service dispatch — a missing or empty `method` parameter yields
400 with body "No method parameter" and a result independent of the
method table (so neither codec nor backend is reached); an unregistered
name yields 404 "Method not found"; a registered name delegates to exactly
the handler registered under it. -/
theorem C5_service_dispatch (h : Swiffy.serviceHandler) (r : Http.Request) :
    (r.formValue "method" = "" →
      ((h.ServeHTTP r Http.RW.empty).finalStatus = 400 ∧
       (h.ServeHTTP r Http.RW.empty).body = "No method parameter\n" ∧
       ∀ h2 : Swiffy.serviceHandler, h2.ServeHTTP r Http.RW.empty = h.ServeHTTP r Http.RW.empty)) ∧
    (r.formValue "method" ≠ "" → h.methods (r.formValue "method") = none →
      ((h.ServeHTTP r Http.RW.empty).finalStatus = 404 ∧
       (h.ServeHTTP r Http.RW.empty).body = "Method not found\n")) ∧
    (∀ mh, r.formValue "method" ≠ "" → h.methods (r.formValue "method") = some mh →
      h.ServeHTTP r Http.RW.empty = mh r Http.RW.empty) := by
  have key : ∀ h2 : Swiffy.serviceHandler, h2.ServeHTTP r Http.RW.empty =
      (if r.formValue "method" = "" then
        Http.httpError Http.RW.empty "No method parameter" 400
       else match h2.methods (r.formValue "method") with
       | none => Http.httpError Http.RW.empty "Method not found" 404
       | some mh => mh r Http.RW.empty) := fun _ => rfl
  refine ⟨?_, ?_, ?_⟩
  · intro hm
    rw [key h, if_pos hm]
    refine ⟨rfl, rfl, ?_⟩
    intro h2
    rw [key h2, if_pos hm]
  · intro hm hn
    rw [key h, if_neg hm, hn]
    exact ⟨rfl, rfl⟩
  · intro mh hm hs
    rw [key h, if_neg hm, hs]

/-- C5 witness: the three dispatch outcomes on a concrete table exposing
only `"Hello"`. -/
theorem C5_service_dispatch_witness :
    ((Fixtures.helloTable.ServeHTTP ⟨[], ""⟩ Http.RW.empty).finalStatus = 400 ∧
      (Fixtures.helloTable.ServeHTTP ⟨[], ""⟩ Http.RW.empty).body = "No method parameter\n") ∧
    (Fixtures.helloTable.ServeHTTP ⟨[("method", ["Nope"])], ""⟩ Http.RW.empty).finalStatus = 404 ∧
    Fixtures.helloTable.ServeHTTP ⟨[("method", ["Hello"])], ""⟩ Http.RW.empty =
      Fixtures.helloH ⟨[("method", ["Hello"])], ""⟩ Http.RW.empty := by
  refine ⟨?_, ?_, ?_⟩
  · have h1 := (C5_service_dispatch Fixtures.helloTable ⟨[], ""⟩).1 (by decide)
    exact ⟨h1.1, h1.2.1⟩
  · exact ((C5_service_dispatch Fixtures.helloTable ⟨[("method", ["Nope"])], ""⟩).2.1
      (by decide) (by rfl)).1
  · exact (C5_service_dispatch Fixtures.helloTable ⟨[("method", ["Hello"])], ""⟩).2.2
      Fixtures.helloH (by decide) (by rfl)

/-- `http.Error` commits its status code whenever the writer has not
already committed one. -/
theorem httpError_finalStatus (w : Http.RW) (msg : String) (code : Nat)
    (h : w.status = none) : (Http.httpError w msg code).finalStatus = code := by
  simp [Http.httpError, Http.RW.setHeader, Http.RW.writeHeader, Http.RW.write,
    Http.RW.finalStatus, h]

/-- `http.Error` appends the message and a newline to the body. -/
theorem httpError_body (w : Http.RW) (msg : String) (code : Nat) :
    (Http.httpError w msg code).body = w.body ++ (msg ++ "\n") := by
  cases h : w.status <;>
    simp [Http.httpError, Http.RW.setHeader, Http.RW.writeHeader, Http.RW.write, h]

/-- Unfolding equation for `methodHandler.ServeHTTP` with the resolution
steps named. -/
theorem methodServe_eq {Rq Rs : Type} (h : Swiffy.methodHandler Rq Rs)
    (r : Http.Request) (w : Http.RW) :
    h.ServeHTTP r w =
      match h.decoder h.zeroReq (Swiffy.resolveRawBody r) (Swiffy.resolveFormat r) with
      | .error e => Http.httpError w ("Decode request failed, " ++ e) 400
      | .ok req => h.afterDecode (Swiffy.resolveFormat r) req w := rfl

/-- Unfolding equation for `methodHandler.afterDecode`. -/
theorem methodAfterDecode_eq {Rq Rs : Type} (h : Swiffy.methodHandler Rq Rs)
    (format : String) (req : Rq) (w : Http.RW) :
    h.afterDecode format req w =
      (match (h.backend req).2 with
      | some err =>
        match err.message with
        | some (some m) =>
          match h.encoder (w.setHeader "X-Content-Type-Options" "nosniff")
              (err.httpStatus.getD 500) m format with
          | (w2, none) => w2
          | (w2, some _) => w2.write (err.text ++ "\n")
        | _ => (w.setHeader "X-Content-Type-Options" "nosniff").write (err.text ++ "\n")
      | none =>
        match h.encoder (w.setHeader "X-Content-Type-Options" "nosniff") 200
            (h.backend req).1 format with
        | (w2, none) => w2
        | (w2, some e) => Http.httpError w2 ("Encode response failed, " ++ e) 500) := by
  unfold Swiffy.methodHandler.afterDecode
  rfl

/-- Unfolding equation for `proxyHandler.ServeHTTP` with the resolution
steps named. -/
theorem proxyServe_eq {Rq Rs : Type} (c : Http.ProtoCodec Rq) (e : Http.ProtoCodec Rs)
    (h : Rpcproxy.proxyHandler Rq Rs) (r : Http.Request) (w : Http.RW) :
    h.ServeHTTP c e r w =
      (if (Rpcproxy.proxyResolveRawBody r).length > 0 then
        match Rpcproxy.proxyDecode c h.zeroReq (Rpcproxy.proxyResolveRawBody r)
            (Rpcproxy.proxyResolveFormat r) with
        | .error e2 => Http.httpError w ("failed parsing request, " ++ e2) 500
        | .ok req => Rpcproxy.proxyHandler.afterDecode e h (Rpcproxy.proxyResolveFormat r) req w
      else Rpcproxy.proxyHandler.afterDecode e h (Rpcproxy.proxyResolveFormat r) h.zeroReq w) := rfl

/-- C6: an empty resolved raw body never fails decode — `ProtoDecoder`
succeeds on empty input for every destination and every format string —
and both dispatchers then run the post-decode path (backend invocation)
on the zero-valued instance of the request shape. -/
theorem C6_empty_body_zero_request (Rq Rs : Type) (c : Http.ProtoCodec Rq)
    (e : Http.ProtoCodec Rs)
    (enc : Http.RW → Nat → Rs → String → Http.RW × Option String)
    (backend : Rq → Rs × Option (Http.GoError Rs)) (zero : Rq) (r : Http.Request) :
    (∀ (dst : Rq) (format : String), Swiffy.ProtoDecoder c dst "" format = .ok dst) ∧
    (r.formValue "request" = "" → r.body = "" →
      (Swiffy.methodHandler.mk backend zero (Swiffy.ProtoDecoder c) enc).ServeHTTP
          r Http.RW.empty =
        (Swiffy.methodHandler.mk backend zero (Swiffy.ProtoDecoder c) enc).afterDecode
          (Swiffy.resolveFormat r) zero Http.RW.empty) ∧
    (r.formValues "request" = [] → r.body = "" →
      (Rpcproxy.proxyHandler.mk backend zero).ServeHTTP c e r Http.RW.empty =
        Rpcproxy.proxyHandler.afterDecode e (Rpcproxy.proxyHandler.mk backend zero)
          (Rpcproxy.proxyResolveFormat r) zero Http.RW.empty) := by
  refine ⟨fun dst format => rfl, ?_, ?_⟩
  · intro h1 h2
    have hrb : Swiffy.resolveRawBody r = "" := by
      unfold Swiffy.resolveRawBody
      simp [h1, h2]
    rw [methodServe_eq, hrb]
    rfl
  · intro h1 h2
    have hrb : Rpcproxy.proxyResolveRawBody r = "" := by
      unfold Rpcproxy.proxyResolveRawBody
      rw [h1, h2]
    rw [proxyServe_eq, hrb]
    rfl

/-- C6 witness: the empty-body fast path on concrete `Unit` fixtures. -/
theorem C6_empty_body_zero_request_witness :
    Swiffy.ProtoDecoder Fixtures.unitCodec () "" "json" = .ok () ∧
    Fixtures.okHandler.ServeHTTP ⟨[], ""⟩ Http.RW.empty =
      Fixtures.okHandler.afterDecode (Swiffy.resolveFormat ⟨[], ""⟩) () Http.RW.empty ∧
    Fixtures.okProxy.ServeHTTP Fixtures.unitCodec Fixtures.unitCodec ⟨[], ""⟩ Http.RW.empty =
      Rpcproxy.proxyHandler.afterDecode Fixtures.unitCodec Fixtures.okProxy
        (Rpcproxy.proxyResolveFormat ⟨[], ""⟩) () Http.RW.empty := by
  have h := C6_empty_body_zero_request Unit Unit Fixtures.unitCodec Fixtures.unitCodec
    (Swiffy.ProtoEncoder Fixtures.unitCodec) Fixtures.okBackend () ⟨[], ""⟩
  exact ⟨h.1 () "json", h.2.1 rfl rfl, h.2.2 rfl rfl⟩

/-- A non-empty string has non-zero length. -/
theorem string_ne_empty_length (s : String) (h : s ≠ "") : s.length ≠ 0 := by
  intro h0
  apply h
  cases s with
  | mk data =>
    simp [String.length] at h0
    simp [h0]

/-- C2 counterexample: a request with the unsupported format `"xml"` and
an EMPTY body gets HTTP 500 from the swiffy dispatcher, not the claimed
400 — the empty body skips decode entirely, so the unknown format first
surfaces at encode time, which is mapped to Internal. -/
theorem C2_unknown_format_counterexample :
    ((Swiffy.methodHandler.mk Fixtures.okBackend ()
        (Swiffy.ProtoDecoder Fixtures.unitCodec)
        (Swiffy.ProtoEncoder Fixtures.unitCodec)).ServeHTTP
      ⟨[("format", ["xml"])], ""⟩ Http.RW.empty).finalStatus = 500 := by
  decide

/-- C2 (amended): for a request whose resolved format is none of the
recognized names, the swiffy dispatcher responds 400 when the resolved raw
body is non-empty (the decoder rejects the format), but 500 when the raw
body is empty and the backend succeeds (decode is skipped and the unknown
format surfaces at encode time as Internal). -/
theorem C2_unknown_format_amended (Rq Rs : Type) (c : Http.ProtoCodec Rq)
    (e : Http.ProtoCodec Rs) (backend : Rq → Rs × Option (Http.GoError Rs))
    (zero : Rq) (r : Http.Request)
    (hc : c.isProto = true) (he : e.isProto = true)
    (hf1 : Swiffy.resolveFormat r ≠ "json")
    (hf2 : Swiffy.resolveFormat r ≠ "proto")
    (hf3 : Swiffy.resolveFormat r ≠ "text") :
    (Swiffy.resolveRawBody r ≠ "" →
      ((Swiffy.methodHandler.mk backend zero (Swiffy.ProtoDecoder c)
        (Swiffy.ProtoEncoder e)).ServeHTTP r Http.RW.empty).finalStatus = 400) ∧
    (Swiffy.resolveRawBody r = "" → (backend zero).2 = none →
      ((Swiffy.methodHandler.mk backend zero (Swiffy.ProtoDecoder c)
        (Swiffy.ProtoEncoder e)).ServeHTTP r Http.RW.empty).finalStatus = 500) := by
  constructor
  · intro hrb
    have hdec : Swiffy.ProtoDecoder c zero (Swiffy.resolveRawBody r)
        (Swiffy.resolveFormat r) =
        .error ("Unknown format " ++ Swiffy.resolveFormat r) := by
      simp [Swiffy.ProtoDecoder, hc, hf1, hf2, hf3, string_ne_empty_length _ hrb]
    rw [methodServe_eq]
    simp only [hdec]
    exact httpError_finalStatus _ _ _ rfl
  · intro hrb hb
    have henc : Swiffy.ProtoEncoder e
        (Http.RW.empty.setHeader "X-Content-Type-Options" "nosniff") 200
        (backend zero).1 (Swiffy.resolveFormat r) =
        (Http.RW.empty.setHeader "X-Content-Type-Options" "nosniff",
          some ("Unknown format " ++ Swiffy.resolveFormat r)) := by
      simp [Swiffy.ProtoEncoder, he, hf1, hf2, hf3]
    rw [methodServe_eq, hrb]
    have hd0 : Swiffy.ProtoDecoder c zero "" (Swiffy.resolveFormat r) = .ok zero := rfl
    simp only [hd0, methodAfterDecode_eq, hb, henc]
    exact httpError_finalStatus _ _ _ rfl

/-- C2 witness: the amended statement at concrete requests with
`format=xml` — body "x" gives 400, empty body gives 500. -/
theorem C2_unknown_format_amended_witness :
    ((Swiffy.methodHandler.mk Fixtures.okBackend ()
        (Swiffy.ProtoDecoder Fixtures.unitCodec)
        (Swiffy.ProtoEncoder Fixtures.unitCodec)).ServeHTTP
      ⟨[("format", ["xml"])], "x"⟩ Http.RW.empty).finalStatus = 400 ∧
    ((Swiffy.methodHandler.mk Fixtures.okBackend ()
        (Swiffy.ProtoDecoder Fixtures.unitCodec)
        (Swiffy.ProtoEncoder Fixtures.unitCodec)).ServeHTTP
      ⟨[("format", ["xml"])], ""⟩ Http.RW.empty).finalStatus = 500 := by
  constructor
  · exact (C2_unknown_format_amended Unit Unit Fixtures.unitCodec Fixtures.unitCodec
      Fixtures.okBackend () ⟨[("format", ["xml"])], "x"⟩ rfl rfl
      (by decide) (by decide) (by decide)).1 (by decide)
  · exact (C2_unknown_format_amended Unit Unit Fixtures.unitCodec Fixtures.unitCodec
      Fixtures.okBackend () ⟨[("format", ["xml"])], ""⟩ rfl rfl
      (by decide) (by decide) (by decide)).2 rfl rfl

/-- C3 counterexample: in the proxy variants a non-empty body that fails
to decode yields HTTP 500 ("failed parsing request, ..."), not the 400 the
claim states for every dispatcher. -/
theorem C3_decode_failure_counterexample :
    ((Fixtures.okProxy).ServeHTTP Fixtures.protoDecodeFailCodec Fixtures.unitCodec
        ⟨[], "x"⟩ Http.RW.empty).finalStatus = 500 ∧
    ((Fixtures.okProxy).ServeHTTP Fixtures.protoDecodeFailCodec Fixtures.unitCodec
        ⟨[], "x"⟩ Http.RW.empty).body = "failed parsing request, bad wire\n" := by
  decide

/-- C3 (amended): a non-empty body that fails to decode never reaches the
backend in any dispatcher, and the failure wraps the codec error — but the
status differs by variant: the swiffy dispatcher responds 400
("Decode request failed, ..."), while the aerpcproxy/rpcproxy variants
respond 500 ("failed parsing request, ..."). -/
theorem C3_decode_failure_amended (Rq Rs : Type)
    (h : Swiffy.methodHandler Rq Rs) (r : Http.Request) (e : String)
    (hdec : h.decoder h.zeroReq (Swiffy.resolveRawBody r) (Swiffy.resolveFormat r) =
      .error e) :
    ((h.ServeHTTP r Http.RW.empty).finalStatus = 400 ∧
     (h.ServeHTTP r Http.RW.empty).body = "Decode request failed, " ++ e ++ "\n" ∧
     ∀ b2, ({ h with backend := b2 } : Swiffy.methodHandler Rq Rs).ServeHTTP
        r Http.RW.empty = h.ServeHTTP r Http.RW.empty) ∧
    (∀ (c : Http.ProtoCodec Rq) (e2 : Http.ProtoCodec Rs)
        (ph : Rpcproxy.proxyHandler Rq Rs) (r2 : Http.Request) (msg : String),
      (Rpcproxy.proxyResolveRawBody r2).length > 0 →
      Rpcproxy.proxyDecode c ph.zeroReq (Rpcproxy.proxyResolveRawBody r2)
        (Rpcproxy.proxyResolveFormat r2) = .error msg →
      ((ph.ServeHTTP c e2 r2 Http.RW.empty).finalStatus = 500 ∧
       (ph.ServeHTTP c e2 r2 Http.RW.empty).body = "failed parsing request, " ++ msg ++ "\n" ∧
       ∀ b2, ({ ph with backend := b2 } : Rpcproxy.proxyHandler Rq Rs).ServeHTTP
          c e2 r2 Http.RW.empty = ph.ServeHTTP c e2 r2 Http.RW.empty)) := by
  constructor
  · refine ⟨?_, ?_, ?_⟩
    · rw [methodServe_eq]
      simp only [hdec]
      exact httpError_finalStatus _ _ _ rfl
    · rw [methodServe_eq]
      simp only [hdec]
      rw [httpError_body]
      rfl
    · intro b2
      rw [methodServe_eq, methodServe_eq]
      simp only [hdec]
  · intro c e2 ph r2 msg hlen hpdec
    refine ⟨?_, ?_, ?_⟩
    · rw [proxyServe_eq, if_pos hlen]
      simp only [hpdec]
      exact httpError_finalStatus _ _ _ rfl
    · rw [proxyServe_eq, if_pos hlen]
      simp only [hpdec]
      rw [httpError_body]
      rfl
    · intro b2
      rw [proxyServe_eq, proxyServe_eq, if_pos hlen, if_pos hlen]
      simp only [hpdec]

/-- C3 witness: the amended statement at a concrete failing decode on both
dispatcher variants. -/
theorem C3_decode_failure_amended_witness :
    (((Swiffy.methodHandler.mk Fixtures.okBackend ()
        (Swiffy.ProtoDecoder Fixtures.protoDecodeFailCodec)
        (Swiffy.ProtoEncoder Fixtures.unitCodec)).ServeHTTP
          ⟨[("format", ["proto"])], "x"⟩ Http.RW.empty).finalStatus = 400 ∧
     ((Swiffy.methodHandler.mk Fixtures.okBackend ()
        (Swiffy.ProtoDecoder Fixtures.protoDecodeFailCodec)
        (Swiffy.ProtoEncoder Fixtures.unitCodec)).ServeHTTP
          ⟨[("format", ["proto"])], "x"⟩ Http.RW.empty).body =
       "Decode request failed, bad wire\n") ∧
    ((Fixtures.okProxy.ServeHTTP Fixtures.protoDecodeFailCodec Fixtures.unitCodec
        ⟨[], "x"⟩ Http.RW.empty).finalStatus = 500 ∧
     (Fixtures.okProxy.ServeHTTP Fixtures.protoDecodeFailCodec Fixtures.unitCodec
        ⟨[], "x"⟩ Http.RW.empty).body = "failed parsing request, bad wire\n") := by
  have h := C3_decode_failure_amended Unit Unit
    (Swiffy.methodHandler.mk Fixtures.okBackend ()
      (Swiffy.ProtoDecoder Fixtures.protoDecodeFailCodec)
      (Swiffy.ProtoEncoder Fixtures.unitCodec))
    ⟨[("format", ["proto"])], "x"⟩ "bad wire" rfl
  have h2 := h.2 Fixtures.protoDecodeFailCodec Fixtures.unitCodec Fixtures.okProxy
    ⟨[], "x"⟩ "bad wire" (by decide) rfl
  exact ⟨⟨h.1.1, h.1.2.1⟩, ⟨h2.1, h2.2.1⟩⟩

/-- C4 counterexample: with no format parameter the proxy variants resolve
the wire format to `"proto"`, not `"json"` — observably: a body that the
json unmarshaller would accept is instead fed to the binary unmarshaller
and the request fails with 500. -/
theorem C4_default_format_counterexample :
    Rpcproxy.proxyResolveFormat ⟨[], "x"⟩ = "proto" ∧
    Rpcproxy.proxyResolveFormat ⟨[], "x"⟩ ≠ "json" ∧
    ((Fixtures.okProxy).ServeHTTP Fixtures.protoDecodeFailCodec Fixtures.unitCodec
        ⟨[], "x"⟩ Http.RW.empty).finalStatus = 500 := by
  refine ⟨rfl, by decide, by decide⟩

/-- C4 (amended): each dispatcher resolves the wire format exactly once
and uses that single resolution for both decoding and encoding (the
equalities with the two-format instrumented variants), but the default
differs by variant: the swiffy dispatcher defaults to `"json"` while the
aerpcproxy/rpcproxy variants default to `"proto"`. -/
theorem C4_default_format_amended (Rq Rs : Type) (h : Swiffy.methodHandler Rq Rs)
    (c : Http.ProtoCodec Rq) (e : Http.ProtoCodec Rs)
    (ph : Rpcproxy.proxyHandler Rq Rs) (r : Http.Request) (w : Http.RW) :
    (r.formValue "format" = "" → Swiffy.resolveFormat r = "json") ∧
    h.ServeHTTP r w =
      h.ServeWithFormats (Swiffy.resolveFormat r) (Swiffy.resolveFormat r) r w ∧
    (r.formValues "format" = [] → Rpcproxy.proxyResolveFormat r = "proto") ∧
    ph.ServeHTTP c e r w =
      ph.ServeWithFormats c e (Rpcproxy.proxyResolveFormat r)
        (Rpcproxy.proxyResolveFormat r) r w := by
  refine ⟨?_, rfl, ?_, rfl⟩
  · intro hf
    unfold Swiffy.resolveFormat
    simp [hf]
  · intro hf
    unfold Rpcproxy.proxyResolveFormat
    rw [hf]

/-- C4 witness: the amended statement at a concrete request with no format
parameter. -/
theorem C4_default_format_amended_witness :
    Swiffy.resolveFormat ⟨[], ""⟩ = "json" ∧
    Fixtures.okHandler.ServeHTTP ⟨[], ""⟩ Http.RW.empty =
      Fixtures.okHandler.ServeWithFormats (Swiffy.resolveFormat ⟨[], ""⟩)
        (Swiffy.resolveFormat ⟨[], ""⟩) ⟨[], ""⟩ Http.RW.empty ∧
    Rpcproxy.proxyResolveFormat ⟨[], ""⟩ = "proto" ∧
    Fixtures.okProxy.ServeHTTP Fixtures.unitCodec Fixtures.unitCodec ⟨[], ""⟩
        Http.RW.empty =
      Fixtures.okProxy.ServeWithFormats Fixtures.unitCodec Fixtures.unitCodec
        (Rpcproxy.proxyResolveFormat ⟨[], ""⟩) (Rpcproxy.proxyResolveFormat ⟨[], ""⟩)
        ⟨[], ""⟩ Http.RW.empty := by
  have h := C4_default_format_amended Unit Unit Fixtures.okHandler Fixtures.unitCodec
    Fixtures.unitCodec Fixtures.okProxy ⟨[], ""⟩ Http.RW.empty
  exact ⟨h.1 rfl, h.2.1, h.2.2.1 rfl, h.2.2.2⟩

/-- Unfolding equation for `proxyHandler.afterDecode`. -/
theorem proxyAfterDecode_eq {Rq Rs : Type} (e : Http.ProtoCodec Rs)
    (h : Rpcproxy.proxyHandler Rq Rs) (format : String) (req : Rq) (w : Http.RW) :
    Rpcproxy.proxyHandler.afterDecode e h format req w =
      (match (h.backend req).2 with
      | some err => Http.httpError w err.text (err.httpStatus.getD 500)
      | none =>
        if format = "json" then
          match e.jsonMarshal (h.backend req).1 with
          | .ok s => (w.addHeader "Content-Type" "text/json; charset=utf-8").write s
          | .error _ => w.addHeader "Content-Type" "text/json; charset=utf-8"
        else if format = "proto" then
          match e.protoMarshal (h.backend req).1 with
          | .ok s => (w.addHeader "Content-Type" "application/x-protobuf").write s
          | .error _ => (w.addHeader "Content-Type" "application/x-protobuf").write ""
        else if format = "text" then
          match e.textMarshal (h.backend req).1 with
          | .ok s => (w.addHeader "Content-Type" "text/plain; charset=utf-8").write s
          | .error _ => w.addHeader "Content-Type" "text/plain; charset=utf-8"
        else w) := by
  unfold Rpcproxy.proxyHandler.afterDecode
  rfl

/-- C8 counterexample: in the proxy variants a failed response marshal is
silently discarded — with the default `proto` format and a backend that
succeeds, a marshalling error still produces a 200 response with an empty
body, not the claimed 500 carrying the encode error. -/
theorem C8_encode_failure_counterexample :
    ((Fixtures.okProxy).ServeHTTP Fixtures.unitCodec Fixtures.protoEncodeFailCodec
        ⟨[], ""⟩ Http.RW.empty).finalStatus = 200 ∧
    ((Fixtures.okProxy).ServeHTTP Fixtures.unitCodec Fixtures.protoEncodeFailCodec
        ⟨[], ""⟩ Http.RW.empty).body = "" := by
  decide

/-- C8 (amended): when the backend succeeds and encoding the response
fails, the swiffy dispatcher responds 500 wrapping the encode error
(whenever the encoder fails without first committing the header, e.g. for
a non-proto source or unknown format); the aerpcproxy/rpcproxy variants
instead discard EVERY response-marshal error silently — in the json,
binary, and text arms alike, for any request reaching the encode switch
(empty raw body or a successfully decoded one) — and an unrecognized
format at encode time writes nothing at all: in every such case the
response goes out with implicit status 200 and an empty body. -/
theorem C8_encode_failure_amended (Rq Rs : Type) (h : Swiffy.methodHandler Rq Rs)
    (r : Http.Request) (req : Rq) (res : Rs) (e : String)
    (hdec : h.decoder h.zeroReq (Swiffy.resolveRawBody r) (Swiffy.resolveFormat r) =
      .ok req)
    (hb : h.backend req = (res, none))
    (henc : h.encoder (Http.RW.empty.setHeader "X-Content-Type-Options" "nosniff") 200
        res (Swiffy.resolveFormat r) =
      (Http.RW.empty.setHeader "X-Content-Type-Options" "nosniff", some e)) :
    ((h.ServeHTTP r Http.RW.empty).finalStatus = 500 ∧
     (h.ServeHTTP r Http.RW.empty).body = ("Encode response failed, " ++ e) ++ "\n") ∧
    (∀ (c2 : Http.ProtoCodec Rq) (e2 : Http.ProtoCodec Rs)
        (ph : Rpcproxy.proxyHandler Rq Rs) (r2 : Http.Request) (req2 : Rq)
        (res2 : Rs) (msg : String),
      (Rpcproxy.proxyResolveRawBody r2 = "" ∧ req2 = ph.zeroReq ∨
        (Rpcproxy.proxyResolveRawBody r2).length > 0 ∧
          Rpcproxy.proxyDecode c2 ph.zeroReq (Rpcproxy.proxyResolveRawBody r2)
            (Rpcproxy.proxyResolveFormat r2) = .ok req2) →
      ph.backend req2 = (res2, none) →
      ((Rpcproxy.proxyResolveFormat r2 = "json" → e2.jsonMarshal res2 = .error msg →
          (ph.ServeHTTP c2 e2 r2 Http.RW.empty).finalStatus = 200 ∧
          (ph.ServeHTTP c2 e2 r2 Http.RW.empty).body = "") ∧
       (Rpcproxy.proxyResolveFormat r2 = "proto" → e2.protoMarshal res2 = .error msg →
          (ph.ServeHTTP c2 e2 r2 Http.RW.empty).finalStatus = 200 ∧
          (ph.ServeHTTP c2 e2 r2 Http.RW.empty).body = "") ∧
       (Rpcproxy.proxyResolveFormat r2 = "text" → e2.textMarshal res2 = .error msg →
          (ph.ServeHTTP c2 e2 r2 Http.RW.empty).finalStatus = 200 ∧
          (ph.ServeHTTP c2 e2 r2 Http.RW.empty).body = "") ∧
       (Rpcproxy.proxyResolveFormat r2 ≠ "json" →
          Rpcproxy.proxyResolveFormat r2 ≠ "proto" →
          Rpcproxy.proxyResolveFormat r2 ≠ "text" →
          (ph.ServeHTTP c2 e2 r2 Http.RW.empty).finalStatus = 200 ∧
          (ph.ServeHTTP c2 e2 r2 Http.RW.empty).body = ""))) := by
  constructor
  · have key : h.ServeHTTP r Http.RW.empty =
        Http.httpError (Http.RW.empty.setHeader "X-Content-Type-Options" "nosniff")
          ("Encode response failed, " ++ e) 500 := by
      rw [methodServe_eq]
      simp only [hdec, methodAfterDecode_eq, hb, henc]
    rw [key]
    refine ⟨httpError_finalStatus _ _ _ rfl, ?_⟩
    rw [httpError_body]
    rfl
  · intro c2 e2 ph r2 req2 res2 msg hreach hb2
    have key : ph.ServeHTTP c2 e2 r2 Http.RW.empty =
        Rpcproxy.proxyHandler.afterDecode e2 ph (Rpcproxy.proxyResolveFormat r2)
          req2 Http.RW.empty := by
      rcases hreach with ⟨hrb2, hreq2⟩ | ⟨hlen2, hdec2⟩
      · rw [proxyServe_eq, hrb2, if_neg (by decide : ¬ (("" : String).length > 0)), hreq2]
      · rw [proxyServe_eq, if_pos hlen2]
        simp only [hdec2]
    refine ⟨?_, ?_, ?_, ?_⟩
    · intro hf2 hm2
      have key2 : ph.ServeHTTP c2 e2 r2 Http.RW.empty =
          Http.RW.empty.addHeader "Content-Type" "text/json; charset=utf-8" := by
        rw [key, proxyAfterDecode_eq]
        simp only [hb2, hf2, hm2]
        simp
      rw [key2]
      exact ⟨rfl, rfl⟩
    · intro hf2 hm2
      have key2 : ph.ServeHTTP c2 e2 r2 Http.RW.empty =
          (Http.RW.empty.addHeader "Content-Type" "application/x-protobuf").write "" := by
        rw [key, proxyAfterDecode_eq]
        simp only [hb2, hf2, hm2]
        simp
      rw [key2]
      exact ⟨rfl, rfl⟩
    · intro hf2 hm2
      have key2 : ph.ServeHTTP c2 e2 r2 Http.RW.empty =
          Http.RW.empty.addHeader "Content-Type" "text/plain; charset=utf-8" := by
        rw [key, proxyAfterDecode_eq]
        simp only [hb2, hf2, hm2]
        simp
      rw [key2]
      exact ⟨rfl, rfl⟩
    · intro hf2a hf2b hf2c
      have key2 : ph.ServeHTTP c2 e2 r2 Http.RW.empty = Http.RW.empty := by
        rw [key, proxyAfterDecode_eq]
        simp only [hb2]
        simp [hf2a, hf2b, hf2c]
      rw [key2]
      exact ⟨rfl, rfl⟩

/-- C8 witness: the amended statement on concrete fixtures — swiffy with
an encode-time unknown format after a successful backend call gives 500;
the proxy variant silently yields 200 with an empty body for a failing
json marshal, a failing binary marshal (also after a decoded non-empty
body), and a failing text marshal. -/
theorem C8_encode_failure_amended_witness :
    ((Fixtures.okHandler.ServeHTTP ⟨[("format", ["xml"])], ""⟩ Http.RW.empty).finalStatus
        = 500 ∧
     (Fixtures.okHandler.ServeHTTP ⟨[("format", ["xml"])], ""⟩ Http.RW.empty).body =
       ("Encode response failed, " ++ "Unknown format xml") ++ "\n") ∧
    ((Fixtures.okProxy.ServeHTTP Fixtures.unitCodec Fixtures.jsonEncodeFailCodec
        ⟨[("format", ["json"])], ""⟩ Http.RW.empty).finalStatus = 200 ∧
     (Fixtures.okProxy.ServeHTTP Fixtures.unitCodec Fixtures.jsonEncodeFailCodec
        ⟨[("format", ["json"])], ""⟩ Http.RW.empty).body = "") ∧
    ((Fixtures.okProxy.ServeHTTP Fixtures.unitCodec Fixtures.protoEncodeFailCodec
        ⟨[], "x"⟩ Http.RW.empty).finalStatus = 200 ∧
     (Fixtures.okProxy.ServeHTTP Fixtures.unitCodec Fixtures.protoEncodeFailCodec
        ⟨[], "x"⟩ Http.RW.empty).body = "") ∧
    ((Fixtures.okProxy.ServeHTTP Fixtures.unitCodec Fixtures.textEncodeFailCodec
        ⟨[("format", ["text"])], ""⟩ Http.RW.empty).finalStatus = 200 ∧
     (Fixtures.okProxy.ServeHTTP Fixtures.unitCodec Fixtures.textEncodeFailCodec
        ⟨[("format", ["text"])], ""⟩ Http.RW.empty).body = "") := by
  have h := C8_encode_failure_amended Unit Unit Fixtures.okHandler
    ⟨[("format", ["xml"])], ""⟩ () () "Unknown format xml" rfl rfl rfl
  refine ⟨h.1, ?_, ?_, ?_⟩
  · exact (h.2 Fixtures.unitCodec Fixtures.jsonEncodeFailCodec Fixtures.okProxy
      ⟨[("format", ["json"])], ""⟩ () () "boom" (Or.inl ⟨rfl, rfl⟩) rfl).1 rfl rfl
  · exact (h.2 Fixtures.unitCodec Fixtures.protoEncodeFailCodec Fixtures.okProxy
      ⟨[], "x"⟩ () () "boom" (Or.inr ⟨by decide, rfl⟩) rfl).2.1 rfl rfl
  · exact (h.2 Fixtures.unitCodec Fixtures.textEncodeFailCodec Fixtures.okProxy
      ⟨[("format", ["text"])], ""⟩ () () "boom" (Or.inl ⟨rfl, rfl⟩) rfl).2.2.1 rfl rfl

/-- C10 counterexample: in the proxy variants a `request` parameter that
is present with the empty string is NOT treated as absent — with body
`"x"` that fails binary decode, the present-but-empty parameter yields a
200 success (the body stream is ignored and the zero request is used),
while the same request without the parameter reads the body and fails
with 500.  The two cases are observably different, refuting the claim for
those dispatchers. -/
theorem C10_empty_inline_counterexample :
    ((Fixtures.okProxy).ServeHTTP Fixtures.protoDecodeFailCodec Fixtures.unitCodec
        ⟨[("request", [""])], "x"⟩ Http.RW.empty).finalStatus = 200 ∧
    ((Fixtures.okProxy).ServeHTTP Fixtures.protoDecodeFailCodec Fixtures.unitCodec
        ⟨[], "x"⟩ Http.RW.empty).finalStatus = 500 ∧
    Rpcproxy.proxyResolveRawBody ⟨[("request", [""])], "x"⟩ = "" := by
  refine ⟨by decide, by decide, rfl⟩

/-- C10 (amended): the swiffy dispatcher goes through `FormValue`, so a
present-but-empty `request` parameter is indistinguishable from an absent
one and the raw body falls back to the body stream; the aerpcproxy/
rpcproxy variants test key presence in `r.Form`, so a present-but-empty
`request` parameter yields an empty raw body and the body stream is never
consulted. -/
theorem C10_empty_inline_amended (r : Http.Request) (vs : List String) :
    (r.formValue "request" = "" → Swiffy.resolveRawBody r = r.body) ∧
    (r.formValues "request" = "" :: vs → r.formValue "request" = "") ∧
    (r.formValues "request" = "" :: vs → Rpcproxy.proxyResolveRawBody r = "") := by
  refine ⟨?_, ?_, ?_⟩
  · intro h
    unfold Swiffy.resolveRawBody
    simp [h]
  · intro h
    unfold Http.Request.formValue
    rw [h]
  · intro h
    unfold Rpcproxy.proxyResolveRawBody
    rw [h]

/-- C10 witness: the amended statement at a request carrying a
present-but-empty `request` parameter and body `"abc"`. -/
theorem C10_empty_inline_amended_witness :
    Swiffy.resolveRawBody ⟨[("request", [""])], "abc"⟩ = "abc" ∧
    Http.Request.formValue ⟨[("request", [""])], "abc"⟩ "request" = "" ∧
    Rpcproxy.proxyResolveRawBody ⟨[("request", [""])], "abc"⟩ = "" := by
  have h := C10_empty_inline_amended ⟨[("request", [""])], "abc"⟩ []
  exact ⟨h.1 rfl, h.2.1 rfl, h.2.2 rfl⟩
